import Mathlib

/-!
Verification of the mcs-data-tools signal pipeline.

Shallow embedding of the synctone-locating pipeline of the repository
(`utils.py`, `h5_tools.py`, `locate_synctones.py`) over lists of rationals.
Machine floats are modelled as exact rationals; numpy / scipy / sklearn
primitives called by the source (`np.convolve`, `np.diff`, `np.where`,
`scipy.signal.savgol_filter`, `sklearn.preprocessing.MinMaxScaler`) are
embedded with their library semantics, as required by the call sites.
-/

set_option maxHeartbeats 1000000

/-- Arithmetic mean of a list of rationals (`np.mean`); 0 on the empty list
(numpy returns NaN there, a case no call site exercises). -/
def meanQ (l : List ℚ) : ℚ := l.sum / l.length

/-- Minimum of a list (`np.min` / the `data_min_` of a fitted scaler); 0 on
the empty list. -/
def listMin : List ℚ → ℚ
  | [] => 0
  | x :: xs => xs.foldl min x

/-- Maximum of a list (`np.max` / the `data_max_` of a fitted scaler); 0 on
the empty list. -/
def listMax : List ℚ → ℚ
  | [] => 0
  | x :: xs => xs.foldl max x

/-- Population variance, the square of `np.std` (the standard deviation
itself is an irrational square root, so the embedding carries its square). -/
def varQ (l : List ℚ) : ℚ := meanQ (l.map (fun x => (x - meanQ l) ^ 2))

/-- Median of a list (`np.median`): middle element of the sorted list, or the
average of the two middle elements when the length is even; 0 on the empty
list. -/
def medianQ (l : List ℚ) : ℚ :=
  let s := l.mergeSort (fun a b => decide (a ≤ b))
  let n := s.length
  if n = 0 then 0
  else if n % 2 = 1 then s.getD (n / 2) 0
  else (s.getD (n / 2 - 1) 0 + s.getD (n / 2) 0) / 2

/-- First differences (`np.diff`): element `i` is `l[i+1] - l[i]`. -/
def npDiff (l : List ℚ) : List ℚ := List.zipWith (fun a b => b - a) l l.tail

/-- Value of a zero-padded sequence at a (possibly out-of-range) integer
index: `l[i]` when `0 ≤ i < length`, else 0. -/
def pget (l : List ℚ) (i : ℤ) : ℚ :=
  if 0 ≤ i then l.getD i.toNat 0 else 0

/-- Full discrete convolution (`np.convolve(a, v, mode="full")`): output
length `a.length + v.length - 1`, entry `k` is `Σ_j v[j] * a[k - j]` with
out-of-range factors zero. -/
def fullConv (a v : List ℚ) : List ℚ :=
  (List.range (a.length + v.length - 1)).map (fun (k : ℕ) =>
    ((List.range v.length).map (fun j => v.getD j 0 * pget a ((k : ℤ) - j))).sum)

/-- Same-mode convolution (`np.convolve(a, v, mode="same")`): the centered
slice of the full convolution, of length `max a.length v.length`, starting at
offset `(min a.length v.length - 1) / 2`. -/
def convolveSame (a v : List ℚ) : List ℚ :=
  ((fullConv a v).drop ((min a.length v.length - 1) / 2)).take (max a.length v.length)

/-- Embedding of `utils.centered_moving_average`: rejects an even window size
(`ValueError`, modelled as `none`), otherwise convolves the data with a
window of equal weights `1/W` in same mode. -/
def centered_moving_average (data : List ℚ) (window_size : ℕ) : Option (List ℚ) :=
  if window_size % 2 = 0 then none
  else some (convolveSame data (List.replicate window_size (1 / (window_size : ℚ))))

/-- Embedding of `utils.find_square_wave_steps`: indices `i + 1` at which the
absolute first difference of the signal exceeds the threshold
(`np.where(np.abs(np.diff(signal)) > threshold)[0] + 1`); the source default
threshold is 0.5. -/
def find_square_wave_steps (signal : List ℚ) (threshold : ℚ := 1 / 2) : List ℕ :=
  ((List.range (signal.length - 1)).filter
    (fun i => decide (threshold < |signal.getD (i + 1) 0 - signal.getD i 0|))).map (· + 1)

/-- Embedding of `sklearn.preprocessing.MinMaxScaler().fit_transform` on a
single-column array with the default feature range (0,1): each value maps to
`(x - min) / (max - min)`, where sklearn's `_handle_zeros_in_scale` replaces
a zero range by 1 (a constant column therefore maps to all zeros, it does not
raise). -/
def minmax_scale (l : List ℚ) : List ℚ :=
  l.map (fun x =>
    (x - listMin l) / (if listMax l - listMin l = 0 then 1 else listMax l - listMin l))

/-- Exact Gaussian elimination on an augmented linear system (rows of
`n` coefficients followed by the right-hand side), fuelled by the number of
unknowns; a column without pivot assigns 0 to its unknown. Used to embed the
exact least-squares solves inside `scipy.signal.savgol_filter` and
`np.polyfit`. -/
def gaussSolve : ℕ → List (List ℚ) → List ℚ
  | 0, _ => []
  | n + 1, rows =>
    match rows.find? (fun r => decide (r.headD 0 ≠ 0)) with
    | none => 0 :: gaussSolve n (rows.map List.tail)
    | some piv =>
      let p0 := piv.headD 0
      let reduced := (rows.erase piv).map (fun r =>
        (List.zipWith (fun a b => a - (r.headD 0 / p0) * b) r piv).tail)
      let sol := gaussSolve n reduced
      let rest := piv.tail
      let x0 := (rest.getLastD 0 - (List.zipWith (fun c s => c * s) rest.dropLast sol).sum) / p0
      x0 :: sol

/-- Evaluate a polynomial given by its coefficient list in ascending degree
order. -/
def polyEval (coeffs : List ℚ) (t : ℚ) : ℚ :=
  coeffs.foldr (fun c acc => c + t * acc) 0

/-- Least-squares polynomial fit of degree `p` through the points
`(ts[i], ys[i])` (`np.polyfit`), evaluated at `t` (`np.polyval`), via the
normal equations solved exactly. -/
def polyfitEval (ts ys : List ℚ) (p : ℕ) (t : ℚ) : ℚ :=
  let rows := (List.range (p + 1)).map (fun i =>
    ((List.range (p + 1)).map (fun j => (ts.map (fun u => u ^ (i + j))).sum))
      ++ [(List.zipWith (fun u y => u ^ i * y) ts ys).sum])
  polyEval (gaussSolve (p + 1) rows) t

/-- The FIR coefficients of `scipy.signal.savgol_coeffs(w, p)` with
`deriv=0`, `delta=1`, `use="conv"`: sample positions `k - pos` for
`k = 0..w-1` with `pos = w/2` for odd `w` and `pos = w/2 - 1/2` for even `w`;
the minimum-norm least-squares solution `c = Aᵀ (A Aᵀ)⁻¹ e₀` of `A c = e₀`
for the Vandermonde-style matrix `A[i][k] = (k - pos)^i`, reversed for
convolution use. -/
def savgolCoeffs (w p : ℕ) : List ℚ :=
  let halflen := w / 2
  let pos : ℚ := if w % 2 = 1 then halflen else (halflen : ℚ) - 1 / 2
  let xs := (List.range w).map (fun (k : ℕ) => (k : ℚ) - pos)
  let rows := (List.range (p + 1)).map (fun i =>
    ((List.range (p + 1)).map (fun j => (xs.map (fun u => u ^ (i + j))).sum))
      ++ [if i = 0 then 1 else 0])
  let z := gaussSolve (p + 1) rows
  (xs.map (fun u => (List.zipWith (fun zi i => zi * u ^ i) z (List.range (p + 1))).sum)).reverse

/-- The values `scipy.signal.savgol_filter` computes in its default
`mode="interp"` once its argument checks pass: zero-padded convolution with
the Savitzky–Golay coefficients in the interior, and exact least-squares
polynomial fits over the first and last `w` samples for the `w/2` positions
at each edge (`_fit_edges_polyfit`). Output length equals input length. -/
def savgolValues (x : List ℚ) (w p : ℕ) : List ℚ :=
  let n := x.length
  let halflen := w / 2
  let c := savgolCoeffs w p
  let ts := (List.range w).map (fun (k : ℕ) => (k : ℚ))
  (List.range n).map (fun i =>
    if i < halflen then polyfitEval ts (x.take w) p (i : ℚ)
    else if n - halflen ≤ i then polyfitEval ts (x.drop (n - w)) p ((i : ℚ) - ((n : ℚ) - (w : ℚ)))
    else ((List.range w).map (fun j => c.getD j 0 * pget x ((i : ℤ) + halflen - j))).sum)

/-- Embedding of `scipy.signal.savgol_filter(x, window_length, polyorder)`
with the default `mode="interp"`: raises (`none`) when
`polyorder >= window_length`, or when `window_length` exceeds the size of
`x`; even window lengths are accepted (scipy then centers the fit at
`halflen - 0.5`). -/
def savgol_filter (x : List ℚ) (window_length polyorder : ℕ) : Option (List ℚ) :=
  if window_length ≤ polyorder then none
  else if x.length < window_length then none
  else some (savgolValues x window_length polyorder)

/-- Embedding of the envelope computation of `locate_synctones`
(lines 107–111): mean-center the audio, square, smooth with
`savgol_filter(·, 1800, 3)`, then min-max scale the result. `none` models
the `ValueError` raised when the sequence is shorter than the 1800-sample
window. -/
def envelope (audio : List ℚ) : Option (List ℚ) :=
  let centered := audio.map (fun v => v - meanQ audio)
  Option.map minmax_scale (savgol_filter (centered.map (fun v => v ^ 2)) 1800 3)

/-- The mean, min, max and standard deviation reported by `locate_synctones`;
the standard deviation is carried as its square (`np.std` squared), since the
square root of a rational is irrational in general. -/
structure IntervalStats where
  mean : ℚ
  min : ℚ
  max : ℚ
  stdSq : ℚ
deriving Repr, DecidableEq

/-- Embedding of line 125 of `locate_synctones`:
`diffs = (10_000 - np.diff(peak_indices)) / 10`, the millisecond diffs of the
detected peak indices. -/
def synctone_diffs_ms (peak_indices : List ℕ) : List ℚ :=
  (npDiff (peak_indices.map (fun (i : ℕ) => (i : ℚ)))).map (fun d => (10000 - d) / 10)

/-- Embedding of lines 126–129 of `locate_synctones`: mean, min, max and
standard deviation (squared) of the millisecond diffs. -/
def synctone_interval_stats (peak_indices : List ℕ) : IntervalStats :=
  let ds := synctone_diffs_ms peak_indices
  ⟨meanQ ds, listMin ds, listMax ds, varQ ds⟩

/-- An attribute value as h5py hands it back: a byte string, a `str`, or some
other object (modelled by an integer). -/
inductive AttrVal where
  | bytes (s : String)
  | str (s : String)
  | int (n : ℤ)
deriving Repr, DecidableEq

/-- One `Stream_*` group under `/Data/Recording_0/AnalogStream`, as the
channel search reads it. `readError` models an exception raised by h5py
while the `try` block examines the group; `label` is the group `Label`
attribute after `attrs.get("Label", "")` applied its default;
`channelLabels` are the decoded `InfoChannel` label entries in ascending
channel order. -/
structure StreamGroup where
  readError : Bool
  hasInfoChannel : Bool
  hasChannelData : Bool
  label : AttrVal
  channelLabels : List String
deriving Repr, DecidableEq

/-- Substring containment on character lists: some suffix of `hay` starts
with `needle` (the Python `in` operator on `str`). -/
def containsSub (hay needle : List Char) : Bool :=
  hay.tails.any (fun t => needle.isPrefixOf t)

/-- The Python `needle in hay` test on strings (character-list level, so
that concrete instances reduce in the kernel). -/
def pyIn (needle hay : String) : Bool :=
  containsSub hay.data needle.data

/-- The Python `s.startswith(pre)` test. -/
def pyStartsWith (s pre : String) : Bool :=
  pre.data.isPrefixOf s.data

/-- The channel-label test of line 66:
`desiredLabelStr.lower() in channel_label.lower()` — `str.lower` acts
per character (the labels are ASCII). -/
def labelMatches (channelLabel desiredLabelStr : String) : Bool :=
  containsSub (channelLabel.data.map Char.toLower)
    (desiredLabelStr.data.map Char.toLower)

/-- Lines 48–52 of `locate_synctones`: decode the group `Label` attribute —
UTF-8 decode when it is a byte string, Python `str(...)` otherwise. -/
def decodeLabel : AttrVal → String
  | .bytes s => s
  | .str s => s
  | .int n => toString n

/-- The analog-stream root the search walks. -/
def recording_group : String := "/Data/Recording_0/AnalogStream"

/-- Embedding of `locate_synctones.find_audio_channel`: walk the stream
groups in key order; a group is skipped when its name does not start with
"Stream_", when reading it raises (the `try`/`except` prints and
`continue`s), when `InfoChannel` or `ChannelData` is missing, or when its
`Label` attribute does not contain "Analog Data". In an accepted group the
channels are scanned in ascending index order and the function returns at
the FIRST channel whose label contains the desired string
case-insensitively. `none` models the final `Exception` raised when no
stream yields a match. -/
def find_audio_channel (streams : List (String × StreamGroup))
    (desiredLabelStr : String) : Option (String × ℕ) :=
  match streams with
  | [] => none
  | (name, g) :: rest =>
    if pyStartsWith name "Stream_" && !g.readError && g.hasInfoChannel &&
        g.hasChannelData && pyIn "Analog Data" (decodeLabel g.label) then
      match (List.range g.channelLabels.length).find?
          (fun i => labelMatches (g.channelLabels.getD i "") desiredLabelStr) with
      | some i => some (recording_group ++ "/" ++ name, i)
      | none => find_audio_channel rest desiredLabelStr
    else find_audio_channel rest desiredLabelStr

/-- The ways `h5_tools.get_date_and_duration` can raise: the
`UnboundLocalError` at the date `print` (the `dateStr` local is only
assigned in the `isinstance(dateRaw, bytes)` branch), and the explicit
`Exception` when the `Duration` attribute is absent. -/
inductive H5ToolsError where
  | unboundLocalDate
  | durationMissing
deriving Repr, DecidableEq

/-- Embedding of `h5_tools.get_date_and_duration`. `dateAttr` is the `Date`
attribute of `/Data` (`none` when absent — `attrs.get("Date", "")` then
yields the `str` default `""`); `duration` is the `Duration` attribute of
`/Data/Recording_0` in microseconds. Python assigns the `dateStr` local only
when the (defaulted) raw value is a byte string, so the `print` that follows
raises `UnboundLocalError` in every other case — before the duration is
read. -/
def get_date_and_duration (dateAttr : Option AttrVal) (duration : Option ℤ) :
    Except H5ToolsError (String × ℤ) :=
  let dateRaw := dateAttr.getD (AttrVal.str "")
  match dateRaw with
  | .bytes s =>
    match duration with
    | none => .error .durationMissing
    | some d => .ok (s, d)
  | _ => .error .unboundLocalDate

/-- The cross-sequence delay statistics the Reconciler reports; the standard
deviation is carried as its square. -/
structure DelayStats where
  mean : ℚ
  median : ℚ
  stdSq : ℚ
  minCentered : ℚ
  maxCentered : ℚ
deriving Repr, DecidableEq

/-- Modelled from the spec: the Reconciler's cross-sequence delay analysis
(`reconcile(seq_a, seq_b, rate_a, rate_b)`) is named by the spec's external
interface but implemented by no file of the repository, so it is embedded
from the spec's words — fail with `LengthMismatch` (`none`) when the two
sequences differ in length; otherwise convert both to timestamps in seconds
(index / sample_rate), take pairwise differences in milliseconds
(timestamp_B − timestamp_A), and report their mean, median, standard
deviation (squared) and the min/max of the mean-centered differences.
`cross_diffs_ms` is the pairwise millisecond-difference sequence. -/
def cross_diffs_ms (seqA seqB : List ℕ) (rateA rateB : ℚ) : List ℚ :=
  List.zipWith (fun a b => (b - a) * 1000)
    (seqA.map (fun (i : ℕ) => (i : ℚ) / rateA))
    (seqB.map (fun (i : ℕ) => (i : ℚ) / rateB))

/-- Modelled from the spec: the Reconciler pass itself — `LengthMismatch`
(`none`) on unequal lengths, otherwise the `DelayStats` record over the
pairwise millisecond differences. -/
def reconcile (seqA seqB : List ℕ) (rateA rateB : ℚ) : Option DelayStats :=
  if seqA.length = seqB.length then
    some ⟨meanQ (cross_diffs_ms seqA seqB rateA rateB),
      medianQ (cross_diffs_ms seqA seqB rateA rateB),
      varQ (cross_diffs_ms seqA seqB rateA rateB),
      listMin ((cross_diffs_ms seqA seqB rateA rateB).map
        (fun d => d - meanQ (cross_diffs_ms seqA seqB rateA rateB))),
      listMax ((cross_diffs_ms seqA seqB rateA rateB).map
        (fun d => d - meanQ (cross_diffs_ms seqA seqB rateA rateB)))⟩
  else none

/-! ## Helper lemmas -/

lemma foldl_min_le_init (xs : List ℚ) (a : ℚ) : xs.foldl min a ≤ a := by
  induction xs generalizing a with
  | nil => simp
  | cons x xs ih => exact le_trans (ih (min a x)) (min_le_left a x)

lemma foldl_min_le_mem (xs : List ℚ) (a x : ℚ) (hx : x ∈ xs) : xs.foldl min a ≤ x := by
  induction xs generalizing a with
  | nil => cases hx
  | cons y ys ih =>
    rcases List.mem_cons.mp hx with h | h
    · subst h
      exact le_trans (foldl_min_le_init ys (min a x)) (min_le_right a x)
    · exact ih (min a y) h

lemma init_le_foldl_max (xs : List ℚ) (a : ℚ) : a ≤ xs.foldl max a := by
  induction xs generalizing a with
  | nil => simp
  | cons x xs ih => exact le_trans (le_max_left a x) (ih (max a x))

lemma mem_le_foldl_max (xs : List ℚ) (a x : ℚ) (hx : x ∈ xs) : x ≤ xs.foldl max a := by
  induction xs generalizing a with
  | nil => cases hx
  | cons y ys ih =>
    rcases List.mem_cons.mp hx with h | h
    · subst h
      exact le_trans (le_max_right a x) (init_le_foldl_max ys (max a x))
    · exact ih (max a y) h

lemma listMin_le_mem (l : List ℚ) (x : ℚ) (hx : x ∈ l) : listMin l ≤ x := by
  cases l with
  | nil => cases hx
  | cons y ys =>
    rcases List.mem_cons.mp hx with h | h
    · subst h; exact foldl_min_le_init ys x
    · exact foldl_min_le_mem ys y x h

lemma mem_le_listMax (l : List ℚ) (x : ℚ) (hx : x ∈ l) : x ≤ listMax l := by
  cases l with
  | nil => cases hx
  | cons y ys =>
    rcases List.mem_cons.mp hx with h | h
    · subst h; exact init_le_foldl_max ys x
    · exact mem_le_foldl_max ys y x h

lemma minmax_scale_length (l : List ℚ) : (minmax_scale l).length = l.length := by
  simp [minmax_scale]

lemma minmax_scale_bounds (l : List ℚ) (v : ℚ) (hv : v ∈ minmax_scale l) :
    0 ≤ v ∧ v ≤ 1 := by
  unfold minmax_scale at hv
  simp only [List.mem_map] at hv
  obtain ⟨x, hx, rfl⟩ := hv
  have h1 : listMin l ≤ x := listMin_le_mem l x hx
  have h2 : x ≤ listMax l := mem_le_listMax l x hx
  by_cases hd : listMax l - listMin l = 0
  · have hx' : x = listMin l := le_antisymm (by linarith) h1
    rw [if_pos hd, hx']
    norm_num
  · have hd' : 0 < listMax l - listMin l := lt_of_le_of_ne (by linarith) (Ne.symm hd)
    rw [if_neg hd]
    refine ⟨div_nonneg (by linarith) (le_of_lt hd'), ?_⟩
    rw [div_le_one hd']
    linarith

lemma savgolValues_length (x : List ℚ) (w p : ℕ) :
    (savgolValues x w p).length = x.length := by
  simp [savgolValues]

lemma foldl_min_replicate (n : ℕ) (c : ℚ) : (List.replicate n c).foldl min c = c := by
  induction n with
  | zero => simp
  | succ n ih => simpa [List.replicate_succ, min_self] using ih

lemma foldl_max_replicate (n : ℕ) (c : ℚ) : (List.replicate n c).foldl max c = c := by
  induction n with
  | zero => simp
  | succ n ih => simpa [List.replicate_succ, max_self] using ih

lemma listMin_replicate (n : ℕ) (c : ℚ) (h : n ≠ 0) :
    listMin (List.replicate n c) = c := by
  cases n with
  | zero => exact absurd rfl h
  | succ n => simp [List.replicate_succ, listMin, foldl_min_replicate]

lemma listMax_replicate (n : ℕ) (c : ℚ) (h : n ≠ 0) :
    listMax (List.replicate n c) = c := by
  cases n with
  | zero => exact absurd rfl h
  | succ n => simp [List.replicate_succ, listMax, foldl_max_replicate]

lemma minmax_scale_replicate (n : ℕ) (c : ℚ) (h : n ≠ 0) :
    minmax_scale (List.replicate n c) = List.replicate n 0 := by
  unfold minmax_scale
  rw [listMin_replicate n c h, listMax_replicate n c h]
  simp [List.map_replicate]

lemma envelope_eq_some (x : List ℚ) (hx : 1800 ≤ x.length) :
    envelope x = some (minmax_scale
      (savgolValues ((x.map (fun v => v - meanQ x)).map (fun v => v ^ 2)) 1800 3)) := by
  simp only [envelope, savgol_filter, List.length_map]
  rw [if_neg (by norm_num : ¬(1800 ≤ 3)), if_neg (by omega : ¬(x.length < 1800))]
  rfl

lemma envelope_isSome (x : List ℚ) (hx : 1800 ≤ x.length) :
    (envelope x).isSome = true := by
  rw [envelope_eq_some x hx]
  rfl

lemma envelope_eq_none (x : List ℚ) (hx : x.length < 1800) :
    envelope x = none := by
  simp only [envelope, savgol_filter, List.length_map]
  rw [if_neg (by norm_num : ¬(1800 ≤ 3)), if_pos hx]
  rfl

/-! ## Claim theorems -/

/-- C6 (amended): the Envelope Extractor mean-centers, squares, smooths with
`savgol_filter(·, 1800, 3)` and min-max normalizes, in that order, and it
fails exactly when the fixed 1800-sample window exceeds the sequence length;
the window being even is NOT an error (scipy accepts even windows, so the
pipeline succeeds on every sequence of at least 1800 samples despite the
even window). -/
theorem envelope_pipeline_spec (x : List ℚ) :
    envelope x = Option.map minmax_scale
      (savgol_filter ((x.map (fun v => v - meanQ x)).map (fun v => v ^ 2)) 1800 3) ∧
    (envelope x = none ↔ x.length < 1800) := by
  constructor
  · rfl
  · constructor
    · intro h
      by_contra hlen
      rw [envelope_eq_some x (by omega)] at h
      exact Option.some_ne_none _ h
    · intro h
      exact envelope_eq_none x h

/-- C6 counterexample: the claim requires the smoothing window to be odd, and
1800 is even, so under the claim the extractor would fail on every input;
the code succeeds on a 1800-sample input. -/
theorem envelope_even_window_cex :
    (envelope (List.replicate 1800 (11 : ℚ))).isSome = true := by
  apply envelope_isSome
  rw [List.length_replicate]

/-- C8: whenever the Envelope Extractor produces an envelope (exactly the
inputs of length at least the 1800-sample window), the envelope has the same
length as the input and every value lies in the closed interval [0,1]. -/
theorem envelope_bounds (x : List ℚ) (hx : 1800 ≤ x.length) :
    ∃ e, envelope x = some e ∧ e.length = x.length ∧ ∀ v ∈ e, 0 ≤ v ∧ v ≤ 1 := by
  refine ⟨minmax_scale
    (savgolValues ((x.map (fun v => v - meanQ x)).map (fun v => v ^ 2)) 1800 3),
    ?_, ?_, ?_⟩
  · exact envelope_eq_some x hx
  · rw [minmax_scale_length, savgolValues_length, List.length_map, List.length_map]
  · intro v hv
    exact minmax_scale_bounds _ v hv

/-- Witness for C8 at a concrete 2000-sample input. -/
theorem envelope_bounds_witness :
    1800 ≤ (List.replicate 2000 (13 : ℚ)).length ∧
    ∃ e, envelope (List.replicate 2000 (13 : ℚ)) = some e ∧
      e.length = (List.replicate 2000 (13 : ℚ)).length ∧
      ∀ v ∈ e, 0 ≤ v ∧ v ≤ 1 :=
  ⟨by rw [List.length_replicate]; norm_num,
    envelope_bounds _ (by rw [List.length_replicate]; norm_num)⟩

/-- C2 (amended): on a constant-valued input of at least the window length,
the Envelope Extractor does not fail — sklearn's `MinMaxScaler` replaces a
zero range by 1 rather than raising, so a constant sequence normalizes to
the all-zero sequence and the pipeline returns a result (no
`DegenerateSignal` error exists in the code). -/
theorem envelope_constant_input (c : ℚ) (n : ℕ) (hn : 1800 ≤ n) :
    (envelope (List.replicate n c)).isSome = true ∧
    minmax_scale (List.replicate n c) = List.replicate n 0 := by
  constructor
  · exact envelope_isSome _ (by rw [List.length_replicate]; exact hn)
  · exact minmax_scale_replicate n c (by omega)

/-- Witness for C2 at a concrete constant input. -/
theorem envelope_constant_input_witness :
    1800 ≤ 1900 ∧
    ((envelope (List.replicate 1900 (7 : ℚ))).isSome = true ∧
      minmax_scale (List.replicate 1900 (7 : ℚ)) = List.replicate 1900 0) :=
  ⟨by norm_num, envelope_constant_input 7 1900 (by norm_num)⟩

/-- C2 counterexample: the claimed `DegenerateSignal` failure does not occur —
on the constant input `replicate 1800 5` the extractor returns a result. -/
theorem envelope_constant_cex :
    (envelope (List.replicate 1800 (5 : ℚ))).isSome = true := by
  apply envelope_isSome
  rw [List.length_replicate]

/-- C5 (amended): for every signal and threshold, the Step Detector returns
exactly the indices `k = i + 1` whose absolute first difference
`|signal[k] - signal[k-1]|` strictly exceeds the threshold, in strictly
ascending order; the source default threshold is 0.5, not 0.1. -/
theorem find_square_wave_steps_spec (signal : List ℚ) (threshold : ℚ) :
    (∀ k, k ∈ find_square_wave_steps signal threshold ↔
      (1 ≤ k ∧ k < signal.length ∧
        threshold < |signal.getD k 0 - signal.getD (k - 1) 0|)) ∧
    List.Pairwise (· < ·) (find_square_wave_steps signal threshold) := by
  constructor
  · intro k
    unfold find_square_wave_steps
    simp only [List.mem_map, List.mem_filter, List.mem_range, decide_eq_true_eq]
    constructor
    · rintro ⟨i, ⟨hi, hlt⟩, rfl⟩
      refine ⟨by omega, by omega, ?_⟩
      simpa using hlt
    · rintro ⟨h1, h2, h3⟩
      refine ⟨k - 1, ⟨by omega, ?_⟩, by omega⟩
      have hk : k - 1 + 1 = k := by omega
      rw [hk]
      exact h3
  · unfold find_square_wave_steps
    rw [List.pairwise_map]
    exact ((List.pairwise_lt_range _).sublist (List.filter_sublist _)).imp
      (fun h => by omega)

/-- C5 counterexample: under the claimed default threshold of 0.1 the jump of
0.3 in `[0, 0.3]` would be reported at index 1, but calling the detector with
its actual default reports nothing; an explicit 0.1 threshold does report
index 1. -/
theorem find_square_wave_steps_default_cex :
    find_square_wave_steps [0, 3 / 10] = [] ∧
    find_square_wave_steps [0, 3 / 10] (1 / 10) = [1] := by
  constructor <;>
  · norm_num [find_square_wave_steps, List.range_succ, List.range_zero,
      List.getD_cons_succ, List.getD_cons_zero, List.filter_cons, abs_of_nonneg]

lemma sum_map_range_eq (f : ℕ → ℚ) (n : ℕ) :
    ((List.range n).map f).sum = ∑ j ∈ Finset.range n, f j := by
  induction n with
  | zero => simp
  | succ n ih =>
    rw [List.range_succ, List.map_append, List.sum_append, Finset.sum_range_succ, ih]
    simp

lemma getD_map_range (f : ℕ → ℚ) (n i : ℕ) (h : i < n) :
    ((List.range n).map f).getD i 0 = f i := by
  rw [List.getD_eq_getElem?_getD, List.getElem?_map, List.getElem?_range h]
  rfl

lemma getD_replicate_of_lt (n : ℕ) (c : ℚ) (j : ℕ) (h : j < n) :
    (List.replicate n c).getD j 0 = c := by
  rw [List.getD_eq_getElem?_getD, List.getElem?_replicate, if_pos h]
  rfl

lemma fullConv_length (a v : List ℚ) :
    (fullConv a v).length = a.length + v.length - 1 := by
  simp [fullConv]

lemma fullConv_getD (a v : List ℚ) (k : ℕ) (hk : k < a.length + v.length - 1) :
    (fullConv a v).getD k 0
      = ((List.range v.length).map (fun j => v.getD j 0 * pget a ((k : ℤ) - j))).sum := by
  unfold fullConv
  exact getD_map_range _ _ _ hk

lemma convolveSame_getD (a v : List ℚ) (hWN : v.length ≤ a.length)
    (i : ℕ) (hi : i < a.length) :
    (convolveSame a v).getD i 0 = (fullConv a v).getD ((v.length - 1) / 2 + i) 0 := by
  unfold convolveSame
  rw [min_eq_right hWN, max_eq_left hWN]
  rw [List.getD_eq_getElem?_getD, List.getElem?_take_of_lt hi, List.getElem?_drop,
    ← List.getD_eq_getElem?_getD]

lemma cma_value (data : List ℚ) (W : ℕ) (hodd : W % 2 = 1) (hWN : W ≤ data.length)
    (i : ℕ) (hi : i < data.length) :
    (convolveSame data (List.replicate W (1 / (W : ℚ)))).getD i 0
      = ((List.range W).map
          (fun (t : ℕ) => pget data ((i : ℤ) + t - ((W - 1) / 2 : ℕ)))).sum / W := by
  have hW1 : 1 ≤ W := by omega
  have hW0 : (W : ℚ) ≠ 0 := Nat.cast_ne_zero.mpr (by omega)
  rw [convolveSame_getD data _ (by rw [List.length_replicate]; exact hWN) i hi]
  rw [fullConv_getD data _ _ (by rw [List.length_replicate]; omega)]
  rw [List.length_replicate, sum_map_range_eq, sum_map_range_eq]
  have step1 : ∀ j ∈ Finset.range W,
      (List.replicate W (1 / (W : ℚ))).getD j 0
          * pget data ((((W - 1) / 2 + i : ℕ) : ℤ) - j)
        = (1 / (W : ℚ)) * pget data (((W - 1) / 2 : ℕ) + (i : ℤ) - j) := by
    intro j hj
    have harg : (((W - 1) / 2 + i : ℕ) : ℤ) - j = ((W - 1) / 2 : ℕ) + (i : ℤ) - j := by
      push_cast
      ring
    rw [getD_replicate_of_lt _ _ _ (Finset.mem_range.mp hj), harg]
  rw [Finset.sum_congr rfl step1, ← Finset.mul_sum]
  have step2 : ∑ j ∈ Finset.range W, pget data (((W - 1) / 2 : ℕ) + (i : ℤ) - j)
      = ∑ t ∈ Finset.range W, pget data ((i : ℤ) + t - ((W - 1) / 2 : ℕ)) := by
    rw [← Finset.sum_range_reflect (fun (t : ℕ) => pget data ((i : ℤ) + t - ((W - 1) / 2 : ℕ))) W]
    refine Finset.sum_congr rfl ?_
    intro j hj
    have hjW : j < W := Finset.mem_range.mp hj
    congr 1
    omega
  rw [step2, one_div, inv_mul_eq_div]

/-- C7 (amended): the centered moving average fails with `InvalidWindowSize`
exactly when the window size `W` is even; when `W` is odd AND `W ≤ N` it
returns a sequence of length `N` whose value at position `i` is the
zero-padded window average `(Σ_{t<W} data[i + t - (W-1)/2]) / W` (same-mode
convolution semantics). When `W > N` the output instead has length
`max N W = W`, so the original claim's unconditional "returns a sequence of
length N" fails. -/
theorem centered_moving_average_spec (data : List ℚ) (W : ℕ) :
    (centered_moving_average data W = none ↔ W % 2 = 0) ∧
    (W % 2 = 1 → W ≤ data.length →
      ∃ out, centered_moving_average data W = some out ∧
        out.length = data.length ∧
        ∀ i < data.length,
          out.getD i 0
            = ((List.range W).map
                (fun (t : ℕ) => pget data ((i : ℤ) + t - ((W - 1) / 2 : ℕ)))).sum / W) := by
  constructor
  · unfold centered_moving_average
    by_cases h : W % 2 = 0
    · simp [h]
    · simp [h]
  · intro hodd hWN
    refine ⟨convolveSame data (List.replicate W (1 / (W : ℚ))), ?_, ?_, ?_⟩
    · unfold centered_moving_average
      rw [if_neg (by omega)]
    · unfold convolveSame
      rw [List.length_take, List.length_drop, fullConv_length, List.length_replicate]
      omega
    · intro i hi
      exact cma_value data W hodd hWN i hi

/-- Witness for C7 at window 3 over a 5-sample input. -/
theorem centered_moving_average_spec_witness :
    (3 % 2 = 1 ∧ 3 ≤ ([1, 2, 3, 4, 5] : List ℚ).length) ∧
    ∃ out, centered_moving_average [1, 2, 3, 4, 5] 3 = some out ∧
      out.length = ([1, 2, 3, 4, 5] : List ℚ).length ∧
      ∀ i < ([1, 2, 3, 4, 5] : List ℚ).length,
        out.getD i 0
          = ((List.range 3).map
              (fun (t : ℕ) => pget [1, 2, 3, 4, 5] ((i : ℤ) + t - ((3 - 1) / 2 : ℕ)))).sum / 3 :=
  ⟨⟨by norm_num, by norm_num⟩,
    (centered_moving_average_spec [1, 2, 3, 4, 5] 3).2 (by norm_num) (by norm_num)⟩

/-- C7 counterexample: for the single-sample input `[1]` and window 3 the
same-mode convolution returns a sequence of length `max N W = 3`, not of the
input length 1, refuting the claim's unconditional output-length clause. -/
theorem centered_moving_average_length_cex :
    (centered_moving_average [(1 : ℚ)] 3).isSome = true ∧
    ((centered_moving_average [(1 : ℚ)] 3).getD []).length = 3 ∧
    ([(1 : ℚ)] : List ℚ).length = 1 := by
  refine ⟨?_, ?_, by norm_num⟩
  · rw [centered_moving_average, if_neg (by norm_num)]
    rfl
  · rw [centered_moving_average, if_neg (by norm_num)]
    unfold convolveSame
    rw [Option.getD_some, List.length_take, List.length_drop, fullConv_length,
      List.length_replicate]
    norm_num

lemma find?_range_eq_some (p : ℕ → Bool) (n i : ℕ) (hi : i < n) (hp : p i = true)
    (hmin : ∀ j < i, p j = false) : (List.range n).find? p = some i := by
  induction n with
  | zero => omega
  | succ n ih =>
    rw [List.range_succ, List.find?_append]
    by_cases h : i < n
    · rw [ih h]
      rfl
    · have hin : i = n := by omega
      have hnone : (List.range n).find? p = none := by
        rw [List.find?_eq_none]
        intro x hx
        rw [List.mem_range] at hx
        simp [hmin x (by omega)]
      rw [hnone]
      subst hin
      simp [List.find?, hp]

/-- C1 (amended): within an accepted stream group the channel scan returns at
the FIRST channel whose label contains the target substring
(case-insensitively) — the source `return`s inside the loop — so for channels
labeled `["audio_L", "other", "audio_R"]` a search for "audio" yields index
0 (`audio_L`), not the last matching index. -/
theorem find_audio_channel_first_match (name : String) (g : StreamGroup)
    (rest : List (String × StreamGroup)) (d : String) (i : ℕ)
    (hname : pyStartsWith name "Stream_" = true)
    (herr : g.readError = false) (hinfo : g.hasInfoChannel = true)
    (hdata : g.hasChannelData = true)
    (hlabel : pyIn "Analog Data" (decodeLabel g.label) = true)
    (hi : i < g.channelLabels.length)
    (hmatch : labelMatches (g.channelLabels.getD i "") d = true)
    (hfirst : ∀ j < i, labelMatches (g.channelLabels.getD j "") d = false) :
    find_audio_channel ((name, g) :: rest) d
      = some (recording_group ++ "/" ++ name, i) := by
  rw [find_audio_channel]
  rw [if_pos (by rw [hname, herr, hinfo, hdata, hlabel]; rfl)]
  rw [find?_range_eq_some _ _ i hi hmatch hfirst]

/-- C1 counterexample: for a single accepted stream with channels labeled
`["audio_L", "other", "audio_R"]`, searching "audio" returns channel index 0
(`audio_L`), not the claimed last matching index 2 (`audio_R`). -/
theorem find_audio_channel_first_match_cex :
    find_audio_channel
        [("Stream_0", ⟨false, true, true, AttrVal.bytes "Analog Data",
          ["audio_L", "other", "audio_R"]⟩)] "audio"
      = some ("/Data/Recording_0/AnalogStream/Stream_0", 0) ∧
    find_audio_channel
        [("Stream_0", ⟨false, true, true, AttrVal.bytes "Analog Data",
          ["audio_L", "other", "audio_R"]⟩)] "audio"
      ≠ some ("/Data/Recording_0/AnalogStream/Stream_0", 2) := by
  constructor
  · decide
  · decide

/-- C10: a fault in any single stream group — a read error (the
`try`/`except` path), a missing `InfoChannel` or `ChannelData` table, or a
`Label` attribute lacking the "Analog Data" marker — never aborts the
search: the group is skipped and the result is exactly that of searching the
remaining groups (so the search fails only when no group yields a match). -/
theorem find_audio_channel_skips_faulty (pre post : List (String × StreamGroup))
    (name : String) (g : StreamGroup) (d : String)
    (hfault : g.readError = true ∨ g.hasInfoChannel = false ∨
      g.hasChannelData = false ∨ pyIn "Analog Data" (decodeLabel g.label) = false) :
    find_audio_channel (pre ++ (name, g) :: post) d
      = find_audio_channel (pre ++ post) d := by
  induction pre with
  | nil =>
    simp only [List.nil_append]
    have hcond : (pyStartsWith name "Stream_" && !g.readError && g.hasInfoChannel &&
        g.hasChannelData && pyIn "Analog Data" (decodeLabel g.label)) = false := by
      rcases hfault with h | h | h | h <;> simp [h]
    rw [find_audio_channel]
    rw [hcond]
    simp
  | cons hd tl ih =>
    obtain ⟨n2, g2⟩ := hd
    simp only [List.cons_append]
    rw [find_audio_channel]
    conv_rhs => rw [find_audio_channel]
    simp only [ih]

/-- Witness for C10: a group whose read raises is skipped and the search
continues into the following group. -/
theorem find_audio_channel_skips_faulty_witness :
    ((⟨true, true, true, AttrVal.bytes "Analog Data", ["audio"]⟩ :
        StreamGroup).readError = true ∨
      (⟨true, true, true, AttrVal.bytes "Analog Data", ["audio"]⟩ :
        StreamGroup).hasInfoChannel = false ∨
      (⟨true, true, true, AttrVal.bytes "Analog Data", ["audio"]⟩ :
        StreamGroup).hasChannelData = false ∨
      pyIn "Analog Data" (decodeLabel (⟨true, true, true,
        AttrVal.bytes "Analog Data", ["audio"]⟩ : StreamGroup).label) = false) ∧
    find_audio_channel
        ([("Stream_0", ⟨false, false, true, AttrVal.bytes "Analog Data", []⟩)] ++
          ("Stream_1", ⟨true, true, true, AttrVal.bytes "Analog Data", ["audio"]⟩) ::
          [("Stream_2", ⟨false, true, true, AttrVal.bytes "Analog Data", ["pda"]⟩)])
        "pda"
      = find_audio_channel
        ([("Stream_0", ⟨false, false, true, AttrVal.bytes "Analog Data", []⟩)] ++
          [("Stream_2", ⟨false, true, true, AttrVal.bytes "Analog Data", ["pda"]⟩)])
        "pda" :=
  ⟨Or.inl rfl,
    find_audio_channel_skips_faulty _ _ _ _ _ (Or.inl rfl)⟩

/-- C9: `get_date_and_duration` raises `UnboundLocalError` at the date
`print` — before the duration is even examined — whenever the `Date`
attribute is absent (the `""` default is a `str`) or its value is not a byte
string; only a bytes-valued `Date` lets the call proceed to the duration
logic (returning the decoded date and the duration, or the explicit missing-
duration `Exception`). -/
theorem get_date_and_duration_date_check (dateAttr : Option AttrVal)
    (duration : Option ℤ) :
    ((∀ s, dateAttr ≠ some (AttrVal.bytes s)) →
      get_date_and_duration dateAttr duration = .error .unboundLocalDate) ∧
    (∀ s, dateAttr = some (AttrVal.bytes s) →
      (duration = none →
        get_date_and_duration dateAttr duration = .error .durationMissing) ∧
      (∀ d, duration = some d →
        get_date_and_duration dateAttr duration = .ok (s, d))) := by
  constructor
  · intro hnb
    match hA : dateAttr with
    | none => rfl
    | some (AttrVal.bytes s) => exact absurd rfl (hnb s)
    | some (AttrVal.str s) => rfl
    | some (AttrVal.int n) => rfl
  · intro s hs
    subst hs
    constructor
    · intro hd
      subst hd
      rfl
    · intro d hd
      subst hd
      rfl

/-- Witness for C9: a `str`-valued `Date` attribute raises the unbound-local
error even though a duration is present. -/
theorem get_date_and_duration_date_check_witness :
    (∀ s, (some (AttrVal.str "2024-05-01") : Option AttrVal) ≠
      some (AttrVal.bytes s)) ∧
    get_date_and_duration (some (AttrVal.str "2024-05-01")) (some 77)
      = .error .unboundLocalDate :=
  ⟨by simp, (get_date_and_duration_date_check _ _).1 (by simp)⟩

/-- C3: the Reconciler's cross-sequence delay analysis fails with
`LengthMismatch` on every pair of sequences of unequal length; on equal
lengths it converts both to timestamps in seconds (index / sample_rate) and
reports the mean, median, standard deviation (carried squared) and the
min/max of the mean-centered pairwise differences in milliseconds. -/
theorem reconcile_spec (a b : List ℕ) (rateA rateB : ℚ) :
    (a.length ≠ b.length → reconcile a b rateA rateB = none) ∧
    (a.length = b.length →
      ∃ s, reconcile a b rateA rateB = some s ∧
        s.mean = meanQ (cross_diffs_ms a b rateA rateB) ∧
        s.median = medianQ (cross_diffs_ms a b rateA rateB) ∧
        s.stdSq = varQ (cross_diffs_ms a b rateA rateB) ∧
        s.minCentered = listMin ((cross_diffs_ms a b rateA rateB).map
          (fun d => d - meanQ (cross_diffs_ms a b rateA rateB))) ∧
        s.maxCentered = listMax ((cross_diffs_ms a b rateA rateB).map
          (fun d => d - meanQ (cross_diffs_ms a b rateA rateB))) ∧
        cross_diffs_ms a b rateA rateB
          = List.zipWith (fun x y => (y - x) * 1000)
              (a.map (fun (i : ℕ) => (i : ℚ) / rateA))
              (b.map (fun (i : ℕ) => (i : ℚ) / rateB))) := by
  constructor
  · intro h
    unfold reconcile
    rw [if_neg h]
  · intro h
    unfold reconcile
    rw [if_pos h]
    exact ⟨_, rfl, rfl, rfl, rfl, rfl, rfl, rfl⟩

/-- Witness for C3: a length-mismatched pair fails and an equal-length pair
yields the statistics record. -/
theorem reconcile_spec_witness :
    (([0] : List ℕ).length ≠ ([0, 1] : List ℕ).length ∧
      reconcile [0] [0, 1] 10000 10000 = none) ∧
    (([0, 10] : List ℕ).length = ([5, 15] : List ℕ).length ∧
      ∃ s, reconcile [0, 10] [5, 15] 10000 10000 = some s ∧
        s.mean = meanQ (cross_diffs_ms [0, 10] [5, 15] 10000 10000) ∧
        s.median = medianQ (cross_diffs_ms [0, 10] [5, 15] 10000 10000) ∧
        s.stdSq = varQ (cross_diffs_ms [0, 10] [5, 15] 10000 10000) ∧
        s.minCentered = listMin ((cross_diffs_ms [0, 10] [5, 15] 10000 10000).map
          (fun d => d - meanQ (cross_diffs_ms [0, 10] [5, 15] 10000 10000))) ∧
        s.maxCentered = listMax ((cross_diffs_ms [0, 10] [5, 15] 10000 10000).map
          (fun d => d - meanQ (cross_diffs_ms [0, 10] [5, 15] 10000 10000))) ∧
        cross_diffs_ms [0, 10] [5, 15] 10000 10000
          = List.zipWith (fun x y => (y - x) * 1000)
              (([0, 10] : List ℕ).map (fun (i : ℕ) => (i : ℚ) / 10000))
              (([5, 15] : List ℕ).map (fun (i : ℕ) => (i : ℚ) / 10000))) :=
  ⟨⟨by norm_num, (reconcile_spec [0] [0, 1] 10000 10000).1 (by norm_num)⟩,
    ⟨rfl, (reconcile_spec [0, 10] [5, 15] 10000 10000).2 rfl⟩⟩

/-- C4 (amended): the intra-sequence interval analysis reports the mean, min,
max and standard deviation (carried squared) of
`expected_interval_ms - diff_ms` where `diff_ms` is the consecutive peak
difference converted to milliseconds at the assumed 10,000 Hz rate — but the
nominal inter-event period hard-coded in `(10_000 - np.diff(...)) / 10` is
10,000 samples = 1000 ms (a 1 Hz synctone train), not 10 ms. -/
theorem synctone_interval_stats_spec (peaks : List ℕ) :
    synctone_diffs_ms peaks
        = (npDiff (peaks.map (fun (i : ℕ) => (i : ℚ)))).map (fun d => 1000 - d / 10) ∧
    synctone_interval_stats peaks
        = ⟨meanQ (synctone_diffs_ms peaks), listMin (synctone_diffs_ms peaks),
            listMax (synctone_diffs_ms peaks), varQ (synctone_diffs_ms peaks)⟩ := by
  constructor
  · unfold synctone_diffs_ms
    refine List.map_congr_left ?_
    intro d _
    ring
  · rfl

/-- C4 counterexample: for consecutive peaks 100 samples (10 ms) apart the
source statistic is 990 ms, while the claimed formula (expected interval
10 ms for a 100 Hz train) would give 0. -/
theorem synctone_interval_stats_cex :
    (synctone_interval_stats [0, 100]).mean = 990 ∧
    meanQ ((npDiff (([0, 100] : List ℕ).map (fun (i : ℕ) => (i : ℚ)))).map
        (fun d => 10 - d / 10)) = 0 := by
  constructor
  · norm_num [synctone_interval_stats, synctone_diffs_ms, npDiff, meanQ,
      List.zipWith_cons_cons]
  · norm_num [npDiff, meanQ, List.zipWith_cons_cons]

/-- Witness for C1: a case-insensitive search over channels
`["pda in", "audio ch"]` returns the first match, index 1. -/
theorem find_audio_channel_first_match_witness :
    (pyStartsWith "Stream_5" "Stream_" = true ∧
      labelMatches ((["pda in", "audio ch"] : List String).getD 1 "") "AUDIO" = true) ∧
    find_audio_channel
        [("Stream_5", ⟨false, true, true, AttrVal.str "Raw Analog Data",
          ["pda in", "audio ch"]⟩)] "AUDIO"
      = some (recording_group ++ "/" ++ "Stream_5", 1) :=
  ⟨⟨by decide, by decide⟩,
    find_audio_channel_first_match "Stream_5"
      ⟨false, true, true, AttrVal.str "Raw Analog Data", ["pda in", "audio ch"]⟩
      [] "AUDIO" 1 (by decide) rfl rfl rfl (by decide) (by decide) (by decide)
      (fun j hj => by
        have hj0 : j = 0 := by omega
        subst hj0
        decide)⟩
